import Mathlib

/-!
Verification of the RaffiDoesCoding pages.

This file gives a shallow embedding of the two components singled out by the
design document — the Typewriter Status Driver (function `typeStatus` in
"Rubaisha's Birthday/script.js" lines 85–104 and, in a slightly different
form, "Hisham's Birthday/script.js" lines 79–89) and the Linear Scene Player
(function `showScene`, the `scenes` array, and the button handlers in
"Rubaisha's Birthday/script.js" lines 106–160) — and proves or refutes the
document's testable properties about them.

Strings are modelled by their character sequences; timer scheduling is
modelled by recording, in the driver state, the millisecond delay passed to
the `setTimeout` call that schedules the next tick; sound playback is
modelled by an explicit outcome for each `play()` call together with the
list of `console.log` lines the handling code emits.
-/

namespace RaffiDoesCoding

/-! ### Definitions: Typewriter Status Driver -/

/-- JavaScript `s.substring(0, e)`: the characters of `s` from position 0 up
to (but excluding) position `e`, a negative `e` being clamped to 0 and an
`e` beyond the length being clamped to the length. -/
def jsSubstring0 (s : String) (e : Int) : String := ⟨s.data.take e.toNat⟩

/-- State of the Typewriter Status Driver.  `messageIndex`, `charIndex` and
`isDeleting` are the script's module-level variables (`charIndex` is a JS
number that could in principle go negative, hence `Int`); `display` is the
text content of the `status-log` element; `delay` is the millisecond delay
passed to the `setTimeout` call made by the most recent tick. -/
structure TWState where
  messageIndex : Nat
  charIndex : Int
  isDeleting : Bool
  display : String
  delay : Nat
deriving DecidableEq

/-- Initial state of either typewriter script: `messageIndex = 0`,
`charIndex = 0`, `isDeleting = false`, display empty.  The first invocation
of `typeStatus` is direct (not via `setTimeout`), so `delay` starts at 0. -/
def twInit : TWState := ⟨0, 0, false, "", 0⟩

/-- One tick of `typeStatus` from "Rubaisha's Birthday/script.js"
(lines 85–104), parameterised by the `logMessages` queue.  The typing branch
writes `currentMessage.substring(0, charIndex + 1)` and then increments
`charIndex`; the deleting branch writes
`currentMessage.substring(0, charIndex - 1)` and then decrements.  An
out-of-range `messageIndex` (never reached from `twInit`) would make the JS
`logMessages[messageIndex]` be `undefined`; the embedding totalises the
lookup with `""`. -/
def tickRuby (msgs : List String) (s : TWState) : TWState :=
  let currentMessage := msgs.getD s.messageIndex ""
  if s.isDeleting then
    let display := jsSubstring0 currentMessage (s.charIndex - 1)
    let charIndex := s.charIndex - 1
    if charIndex = 0 then
      { messageIndex := (s.messageIndex + 1) % msgs.length
        charIndex := charIndex
        isDeleting := false
        display := display
        delay := 100 }
    else
      { s with charIndex := charIndex, display := display, delay := 50 }
  else
    let display := jsSubstring0 currentMessage (s.charIndex + 1)
    let charIndex := s.charIndex + 1
    if charIndex = (currentMessage.length : Int) then
      { s with charIndex := charIndex, isDeleting := true,
               display := display, delay := 2000 }
    else
      { s with charIndex := charIndex, display := display, delay := 100 }

/-- One tick of `typeStatus` from "Hisham's Birthday/script.js"
(lines 79–89).  The only difference from `tickRuby` is the use of the
postfix operators `charIndex++` / `charIndex--`: the display is written with
the OLD value of `charIndex`, which is updated only afterwards. -/
def tickHisham (msgs : List String) (s : TWState) : TWState :=
  let currentMessage := msgs.getD s.messageIndex ""
  if s.isDeleting then
    let display := jsSubstring0 currentMessage s.charIndex
    let charIndex := s.charIndex - 1
    if charIndex = 0 then
      { messageIndex := (s.messageIndex + 1) % msgs.length
        charIndex := charIndex
        isDeleting := false
        display := display
        delay := 100 }
    else
      { s with charIndex := charIndex, display := display, delay := 50 }
  else
    let display := jsSubstring0 currentMessage s.charIndex
    let charIndex := s.charIndex + 1
    if charIndex = (currentMessage.length : Int) then
      { s with charIndex := charIndex, isDeleting := true,
               display := display, delay := 2000 }
    else
      { s with charIndex := charIndex, display := display, delay := 100 }

/-- The `logMessages` array of "Rubaisha's Birthday/script.js". -/
def rubyLogMessages : List String :=
  ["// loading memory: ruby_bday.dat",
   "// connection unstable...",
   "// running nostalgia protocol...",
   "// happy_birthday.exe executed."]

/-- The `logMessages` array of "Hisham's Birthday/script.js". -/
def hishamLogMessages : List String :=
  ["// connection unstable...",
   "// nostalgia protocol running...",
   "// happy_birthday.exe executed."]

/-- The message currently selected by a typewriter state (the script's
`logMessages[messageIndex]`). -/
def currentMsg (msgs : List String) (s : TWState) : String :=
  msgs.getD s.messageIndex ""

/-- Induction invariant of the Rubaisha typewriter: the message cursor is in
range, the display holds the prefix of the selected message of length
`charIndex`, and `charIndex` lies strictly below the message length while
typing and in `[1, length]` while deleting. -/
def TWInv (msgs : List String) (s : TWState) : Prop :=
  s.messageIndex < msgs.length ∧
  s.display = jsSubstring0 (currentMsg msgs s) s.charIndex ∧
  (s.isDeleting = true →
    1 ≤ s.charIndex ∧ s.charIndex ≤ ((currentMsg msgs s).length : Int)) ∧
  (s.isDeleting = false →
    0 ≤ s.charIndex ∧ s.charIndex < ((currentMsg msgs s).length : Int))

/-- Number of ticks taken by the first `k` complete type-then-delete cycles
of the Rubaisha typewriter: the cycle on message `i` types its `length`
characters and then deletes them again, one character per tick. -/
def cycleTicks (msgs : List String) : Nat → Nat
  | 0 => 0
  | k + 1 => 2 * (msgs.getD (k % msgs.length) "").length + cycleTicks msgs k

/-! ### Definitions: Linear Scene Player -/

/-- A scene record: image URI, dialogue text, id of the audio element to
play, and the optional index of the successor scene (`next: null` in the
source becomes `none`). -/
structure Scene where
  image : String
  dialogue : String
  audio : String
  next : Option Nat
deriving DecidableEq

/-- `scenes[index]` for an out-of-range index would be `undefined` in JS and
the subsequent field accesses would throw; the embedding totalises the
lookup with this inert default record, which no claim exercises. -/
def defaultScene : Scene := ⟨"", "", "", none⟩

/-- The `scenes` array of "Rubaisha's Birthday/script.js" (lines 106–125). -/
def scenes : List Scene :=
  [⟨"images/bedroom.jpg",
    "The room reeks of despair. A razor sits on the dresser.",
    "whisper", some 1⟩,
   ⟨"images/bathroom.jpg",
    "The bathtub is tinged with red. The mirror cracks silently.",
    "door", some 2⟩,
   ⟨"images/window.jpg",
    "You see the note. Blood trails on the glass.",
    "scream", none⟩]

/-- The fixed closing line appended to the terminal scene's dialogue
(line 149 of "Rubaisha's Birthday/script.js"). -/
def epilogue : String := "\n\nRuby’s ghost appears behind you..."

/-- The page state the Scene Player mutates: the `src` of `scene-image`, the
text of `dialogue-box`, visibility and armed `onclick` target of
`next-room-btn` (the index the handler will advance to — `none` when no
handler has been assigned yet), the ordered list of audio ids on which
`play()` has been called, and the visibility of the `opening-screen` and
`game-container` elements. -/
structure Dom where
  imageSrc : String
  dialogueText : String
  nextBtnShown : Bool
  nextBtnOnclick : Option Nat
  playedSounds : List String
  openingShown : Bool
  gameShown : Bool
deriving DecidableEq

/-- The page state after `window.onload` (which hides `game-container`),
before any button is clicked. -/
def dom0 : Dom := ⟨"", "", false, none, [], true, false⟩

/-- `showScene(index)` from "Rubaisha's Birthday/script.js" (lines 133–151):
set the image, overwrite the dialogue, call `play()` on the scene's sound,
then either show the continue control and arm its `onclick` with the
successor index, or — when `next` is `null` — hide the control and append
the epilogue to the dialogue (leaving the stale `onclick` in place, exactly
as the source does). -/
def showScene (chain : List Scene) (index : Nat) (d : Dom) : Dom :=
  let scene := chain.getD index defaultScene
  let d1 : Dom :=
    { d with imageSrc := scene.image
             dialogueText := scene.dialogue
             playedSounds := d.playedSounds ++ [scene.audio] }
  match scene.next with
  | some nxt => { d1 with nextBtnShown := true, nextBtnOnclick := some nxt }
  | none => { d1 with nextBtnShown := false
                      dialogueText := d1.dialogueText ++ epilogue }

/-- The Scene Player's full state: the module-level cursor `currentScene`
plus the page state. -/
structure Player where
  currentScene : Nat
  dom : Dom
deriving DecidableEq

/-- Activation of the "continue" control: the armed `onclick` handler
(lines 143–146) sets `currentScene = scene.next` and calls
`showScene(currentScene)`.  With no handler armed, a click does nothing. -/
def clickNextBtn (chain : List Scene) (p : Player) : Player :=
  match p.dom.nextBtnOnclick with
  | some nxt => { currentScene := nxt, dom := showScene chain nxt p.dom }
  | none => p

/-- The `start-btn` click handler (lines 156–160): hide the opening screen,
show the game container, and call `showScene(currentScene)` — the handler
never writes `currentScene`. -/
def clickStartBtn (chain : List Scene) (p : Player) : Player :=
  { currentScene := p.currentScene
    dom := showScene chain p.currentScene
      { p.dom with openingShown := false, gameShown := true } }

/-- Well-formed linear scene chain: non-empty, every non-final scene points
to the next index, and the final scene has no successor.  This is the shape
of the `scenes` data, and the reading of "well-formed chain" under which the
design document's walk-length property (`chainLength - 1` activations) is
stated. -/
def LinearChain (chain : List Scene) : Prop :=
  chain ≠ [] ∧
  ∀ i < chain.length,
    (chain.getD i defaultScene).next =
      if i + 1 < chain.length then some (i + 1) else none

/-- The page state reached on a linear chain after the start click followed
by `k` continue activations: scene `k` is displayed (with the epilogue
appended at the final scene), the continue control is shown exactly below
the final scene, the armed handler targets `k + 1` when a successor exists
and otherwise keeps its previous value, and the sounds of scenes `0..k`
have each been played once in order. -/
def domAfter (chain : List Scene) (k : Nat) : Dom :=
  { imageSrc := (chain.getD k defaultScene).image
    dialogueText :=
      if k + 1 < chain.length then (chain.getD k defaultScene).dialogue
      else (chain.getD k defaultScene).dialogue ++ epilogue
    nextBtnShown := decide (k + 1 < chain.length)
    nextBtnOnclick :=
      if k + 1 < chain.length then some (k + 1)
      else if k = 0 then none else some k
    playedSounds :=
      (List.range (k + 1)).map fun i => (chain.getD i defaultScene).audio
    openingShown := false
    gameShown := true }

/-! ### Definitions: sound-playback outcome handling -/

/-- Outcome of one HTMLMediaElement `play()` call (settlement of the
promise it returns). -/
inductive PlayOutcome
  | ok
  | failed
deriving DecidableEq

/-- How a call site of `play()` handles the returned promise:
`onFailureLog` holds the prefix of the `console.log` message attached via
`.catch`, when the source attaches a handler, and `none` otherwise. -/
structure PlayCall where
  onFailureLog : Option String
deriving DecidableEq

/-- Line 139 of "Rubaisha's Birthday/script.js" is the bare statement
`sound.play();` — no rejection handler is attached. -/
def rubyShowSceneCall : PlayCall := ⟨none⟩

/-- Line 110 of "Hisham's Birthday/script.js":
`song.play().catch(error => console.log("Audio play failed: " + error));` -/
def hishamMusicCall : PlayCall := ⟨some "Audio play failed: "⟩

/-- Console output produced by one playback attempt at the given call site:
a failure produces the call site's catch message (when it attached a
handler); a success, or an unhandled failure, logs nothing. -/
def playLog (c : PlayCall) (outcome : PlayOutcome) (err : String) :
    List String :=
  match outcome, c.onFailureLog with
  | .failed, some msg => [msg ++ err]
  | _, _ => []

/-- `showScene` together with the outcome of its `sound.play()` call: the
DOM mutations do not depend on the outcome (the promise rejection is
asynchronous and never observed by the script), and the console output is
that of the handler-less call site. -/
def showSceneWithAudio (chain : List Scene) (index : Nat)
    (outcome : PlayOutcome) (err : String) (d : Dom) : Dom × List String :=
  (showScene chain index d, playLog rubyShowSceneCall outcome err)

/-- State touched by the Hisham music player: the audio element's `paused`
flag, the label of `play-pause-btn`, and the console log. -/
structure MusicState where
  paused : Bool
  btnText : String
  log : List String
deriving DecidableEq

/-- The `play-pause-btn` click handler of "Hisham's Birthday/script.js"
(lines 108–116), with the outcome of `song.play()` made explicit.  When the
song is paused the handler calls `play()` — on failure the `.catch` logs
and the element stays paused (host behaviour of a rejected `play()`) — and
sets the label to "Pause Song"; otherwise it calls `pause()` and sets the
label to "Play Song". -/
def playBtnClick (outcome : PlayOutcome) (err : String) (m : MusicState) :
    MusicState :=
  if m.paused then
    { paused := if outcome = PlayOutcome.ok then false else m.paused
      btnText := "Pause Song"
      log := m.log ++ playLog hishamMusicCall outcome err }
  else
    { paused := true, btnText := "Play Song", log := m.log }

/-! ### Helper lemmas: strings and list lookup -/

/-- Taking zero characters of any string gives the empty string. -/
lemma jsSubstring0_zero (s : String) : jsSubstring0 s 0 = "" := rfl

/-- Taking all characters of a string gives the string back. -/
lemma jsSubstring0_length (s : String) :
    jsSubstring0 s (s.length : Int) = s := by
  show String.mk (s.data.take (Int.toNat (s.length : Int))) = s
  rw [Int.toNat_natCast]
  show String.mk (s.data.take s.data.length) = s
  rw [List.take_length]

/-- A string other than `""` has positive length. -/
lemma length_pos_of_ne_empty {m : String} (h : m ≠ "") : 0 < m.length := by
  cases m with
  | mk data =>
    cases data with
    | nil => exact absurd rfl h
    | cons c cs => simp

/-- In a list of nowhere-empty strings, every in-range lookup is not
empty. -/
lemma getD_ne_empty {msgs : List String} (h2 : ∀ m ∈ msgs, m ≠ "") {i : Nat}
    (hi : i < msgs.length) : msgs.getD i "" ≠ "" := by
  have hmem : msgs.getD i "" ∈ msgs := by
    rw [List.getD_eq_getElem msgs "" hi]
    exact List.getElem_mem hi
  exact h2 _ hmem

/-- In a queue of nowhere-empty messages, the selected message of any state
whose cursor is in range is not empty. -/
lemma currentMsg_ne_empty {msgs : List String} {s : TWState}
    (h2 : ∀ m ∈ msgs, m ≠ "") (hmi : s.messageIndex < msgs.length) :
    currentMsg msgs s ≠ "" :=
  getD_ne_empty h2 hmi

/-! ### Helper lemmas: the typewriter invariant -/

/-- The invariant holds initially. -/
lemma twInv_init (msgs : List String) (h1 : msgs ≠ [])
    (h2 : ∀ m ∈ msgs, m ≠ "") : TWInv msgs twInit := by
  have hn : 0 < msgs.length := List.length_pos.mpr h1
  have hne : currentMsg msgs twInit ≠ "" := currentMsg_ne_empty h2 hn
  have hpos : 0 < (currentMsg msgs twInit).length := length_pos_of_ne_empty hne
  refine ⟨hn, rfl, fun hh => Bool.noConfusion hh, fun _ => ⟨le_refl 0, ?_⟩⟩
  show (0 : Int) < ((currentMsg msgs twInit).length : Int)
  exact_mod_cast hpos

/-- Each Rubaisha tick preserves the invariant. -/
lemma twInv_step (msgs : List String) (h1 : msgs ≠ [])
    (h2 : ∀ m ∈ msgs, m ≠ "") (s : TWState) (hs : TWInv msgs s) :
    TWInv msgs (tickRuby msgs s) := by
  obtain ⟨hmi, hdisp, hdel, htyp⟩ := hs
  have hn : 0 < msgs.length := List.length_pos.mpr h1
  unfold TWInv tickRuby currentMsg at *
  dsimp only
  split_ifs with hd hz hc
  · -- deleting tick reaching charIndex = 0: advance to the next message
    obtain ⟨hlo, hhi⟩ := hdel hd
    have hmi' : (s.messageIndex + 1) % msgs.length < msgs.length :=
      Nat.mod_lt _ hn
    refine ⟨hmi', ?_, ?_, ?_⟩
    · show jsSubstring0 (msgs.getD s.messageIndex "") (s.charIndex - 1) =
        jsSubstring0 (msgs.getD ((s.messageIndex + 1) % msgs.length) "")
          (s.charIndex - 1)
      rw [hz, jsSubstring0_zero, jsSubstring0_zero]
    · exact fun hh => hh.elim
    · intro _
      have hne : msgs.getD ((s.messageIndex + 1) % msgs.length) "" ≠ "" :=
        getD_ne_empty h2 hmi'
      have hpos := length_pos_of_ne_empty hne
      constructor
      · show (0 : Int) ≤ s.charIndex - 1
        omega
      · show s.charIndex - 1 <
          ((msgs.getD ((s.messageIndex + 1) % msgs.length) "").length : Int)
        rw [hz]
        exact_mod_cast hpos
  · -- deleting tick with characters left
    obtain ⟨hlo, hhi⟩ := hdel hd
    refine ⟨hmi, rfl, ?_, ?_⟩
    · intro _
      constructor
      · show (1 : Int) ≤ s.charIndex - 1
        omega
      · show s.charIndex - 1 ≤ ((msgs.getD s.messageIndex "").length : Int)
        omega
    · intro hh
      dsimp only at hh
      rw [hd] at hh
      exact Bool.noConfusion hh
  · -- typing tick completing the message
    have hdf : s.isDeleting = false := by
      cases hb : s.isDeleting
      · rfl
      · exact absurd hb hd
    obtain ⟨hlo, hhi⟩ := htyp hdf
    refine ⟨hmi, rfl, ?_, ?_⟩
    · intro _
      constructor
      · show (1 : Int) ≤ s.charIndex + 1
        omega
      · show s.charIndex + 1 ≤ ((msgs.getD s.messageIndex "").length : Int)
        omega
    · exact fun hh => hh.elim
  · -- typing tick with characters left
    have hdf : s.isDeleting = false := by
      cases hb : s.isDeleting
      · rfl
      · exact absurd hb hd
    obtain ⟨hlo, hhi⟩ := htyp hdf
    refine ⟨hmi, rfl, ?_, ?_⟩
    · intro hh
      dsimp only at hh
      rw [hdf] at hh
      exact Bool.noConfusion hh
    · intro _
      constructor
      · show (0 : Int) ≤ s.charIndex + 1
        omega
      · show s.charIndex + 1 < ((msgs.getD s.messageIndex "").length : Int)
        omega

/-! ### Helper lemmas: one Rubaisha tick in each mode -/

/-- A typing tick that does not complete the message. -/
lemma tickRuby_typing (msgs : List String) (mi : Nat) (j : Int)
    (disp : String) (d : Nat)
    (hne : ¬ (j + 1 = ((msgs.getD mi "").length : Int))) :
    tickRuby msgs ⟨mi, j, false, disp, d⟩ =
      ⟨mi, j + 1, false, jsSubstring0 (msgs.getD mi "") (j + 1), 100⟩ := by
  unfold tickRuby
  dsimp only
  rw [if_neg hne]
  rfl

/-- A typing tick that completes the message and schedules the 2000 ms
pause. -/
lemma tickRuby_typing_done (msgs : List String) (mi : Nat) (j : Int)
    (disp : String) (d : Nat)
    (heq : j + 1 = ((msgs.getD mi "").length : Int)) :
    tickRuby msgs ⟨mi, j, false, disp, d⟩ =
      ⟨mi, j + 1, true, jsSubstring0 (msgs.getD mi "") (j + 1), 2000⟩ := by
  unfold tickRuby
  dsimp only
  rw [if_pos heq]
  rfl

/-- A deleting tick that leaves characters on display. -/
lemma tickRuby_deleting (msgs : List String) (mi : Nat) (j : Int)
    (disp : String) (d : Nat)
    (hne : ¬ (j - 1 = (0 : Int))) :
    tickRuby msgs ⟨mi, j, true, disp, d⟩ =
      ⟨mi, j - 1, true, jsSubstring0 (msgs.getD mi "") (j - 1), 50⟩ := by
  unfold tickRuby
  dsimp only
  rw [if_neg hne]
  rfl

/-- A deleting tick that empties the display and advances the message
cursor. -/
lemma tickRuby_deleting_done (msgs : List String) (mi : Nat) (j : Int)
    (disp : String) (d : Nat)
    (heq : j - 1 = (0 : Int)) :
    tickRuby msgs ⟨mi, j, true, disp, d⟩ =
      ⟨(mi + 1) % msgs.length, j - 1, false,
        jsSubstring0 (msgs.getD mi "") (j - 1), 100⟩ := by
  unfold tickRuby
  dsimp only
  rw [if_pos heq]
  rfl

/-! ### Helper lemmas: phase runs and full cycles -/

/-- Running the last `r` typing ticks of a message (from `charIndex =
length - r`) reaches the switched-to-deleting state with the full message
on display. -/
lemma typeRun (msgs : List String) (mi : Nat) :
    ∀ (r : Nat), 1 ≤ r → r ≤ (msgs.getD mi "").length →
      ∀ (disp : String) (d : Nat),
      (tickRuby msgs)^[r]
          ⟨mi, (((msgs.getD mi "").length - r : Nat) : Int), false, disp, d⟩ =
        ⟨mi, ((msgs.getD mi "").length : Int), true, msgs.getD mi "", 2000⟩ := by
  intro r
  induction r with
  | zero => intro h1; exact absurd h1 (by omega)
  | succ t ih =>
    intro h1 h2 disp d
    rcases Nat.eq_zero_or_pos t with ht | ht
    · subst ht
      rw [Function.iterate_one]
      have heq : (((msgs.getD mi "").length - (0 + 1) : Nat) : Int) + 1 =
          ((msgs.getD mi "").length : Int) := by omega
      rw [tickRuby_typing_done msgs mi _ disp d heq, heq, jsSubstring0_length]
    · rw [Function.iterate_succ_apply]
      have hne : ¬ ((((msgs.getD mi "").length - (t + 1) : Nat) : Int) + 1 =
          ((msgs.getD mi "").length : Int)) := by omega
      rw [tickRuby_typing msgs mi _ disp d hne]
      have hcast : (((msgs.getD mi "").length - (t + 1) : Nat) : Int) + 1 =
          (((msgs.getD mi "").length - t : Nat) : Int) := by omega
      rw [hcast]
      exact ih ht (by omega) _ _

/-- Running `r` deleting ticks from `charIndex = r` empties the display and
advances the message cursor. -/
lemma delRun (msgs : List String) (mi : Nat) :
    ∀ (r : Nat), 1 ≤ r →
      ∀ (disp : String) (d : Nat),
      (tickRuby msgs)^[r] ⟨mi, (r : Int), true, disp, d⟩ =
        ⟨(mi + 1) % msgs.length, 0, false, "", 100⟩ := by
  intro r
  induction r with
  | zero => intro h1; exact absurd h1 (by omega)
  | succ t ih =>
    intro h1 disp d
    rcases Nat.eq_zero_or_pos t with ht | ht
    · subst ht
      rw [Function.iterate_one]
      have heq : (((0 + 1 : Nat) : Int)) - 1 = 0 := by omega
      rw [tickRuby_deleting_done msgs mi _ disp d heq, heq, jsSubstring0_zero]
    · rw [Function.iterate_succ_apply]
      have hne : ¬ ((((t + 1 : Nat) : Int)) - 1 = 0) := by omega
      rw [tickRuby_deleting msgs mi _ disp d hne]
      have hcast : (((t + 1 : Nat) : Int)) - 1 = ((t : Nat) : Int) := by omega
      rw [hcast]
      exact ih ht _ _

/-- One full type-then-delete cycle on a non-empty message: `2 * length`
ticks take the driver from the start of message `mi` to the start of the
next message. -/
lemma cycleRun (msgs : List String) (mi : Nat)
    (hne : msgs.getD mi "" ≠ "") (disp : String) (d : Nat) :
    (tickRuby msgs)^[2 * (msgs.getD mi "").length] ⟨mi, 0, false, disp, d⟩ =
      ⟨(mi + 1) % msgs.length, 0, false, "", 100⟩ := by
  have hlen : 1 ≤ (msgs.getD mi "").length := length_pos_of_ne_empty hne
  have h2 : 2 * (msgs.getD mi "").length =
      (msgs.getD mi "").length + (msgs.getD mi "").length := by omega
  rw [h2, Function.iterate_add_apply]
  have hty := typeRun msgs mi (msgs.getD mi "").length hlen le_rfl disp d
  rw [Nat.sub_self] at hty
  rw [show (((0 : Nat) : Int)) = (0 : Int) from rfl] at hty
  rw [hty]
  exact delRun msgs mi (msgs.getD mi "").length hlen _ _

/-- After `k` complete cycles the driver sits at the start of message
`k % n`. -/
lemma cycles_reach (msgs : List String) (h1 : msgs ≠ [])
    (h2 : ∀ m ∈ msgs, m ≠ "") :
    ∀ k : Nat, ∃ d : Nat,
      (tickRuby msgs)^[cycleTicks msgs k] twInit =
        ⟨k % msgs.length, 0, false, "", d⟩ := by
  have hn : 0 < msgs.length := List.length_pos.mpr h1
  intro k
  induction k with
  | zero =>
    refine ⟨0, ?_⟩
    rw [show cycleTicks msgs 0 = 0 from rfl, Function.iterate_zero_apply,
      Nat.zero_mod]
    rfl
  | succ t ih =>
    obtain ⟨d, hd⟩ := ih
    refine ⟨100, ?_⟩
    rw [show cycleTicks msgs (t + 1) =
      2 * (msgs.getD (t % msgs.length) "").length + cycleTicks msgs t from rfl]
    rw [Function.iterate_add_apply, hd]
    have hmi : t % msgs.length < msgs.length := Nat.mod_lt _ hn
    rw [cycleRun msgs (t % msgs.length) (getD_ne_empty h2 hmi) "" d]
    rw [Nat.ModEq.add_right 1 (Nat.mod_modEq t msgs.length)]

/-! ### Helper lemmas: walking a linear scene chain -/

/-- On a linear chain, the start click followed by `k` continue activations
puts the cursor on scene `k` and the page state at `domAfter chain k`. -/
lemma scene_walk (chain : List Scene) (hchain : LinearChain chain) :
    ∀ k, k < chain.length →
      (clickNextBtn chain)^[k] (clickStartBtn chain ⟨0, dom0⟩) =
        ⟨k, domAfter chain k⟩ := by
  obtain ⟨hne, hnext⟩ := hchain
  have hn : 0 < chain.length := List.length_pos.mpr hne
  intro k
  induction k with
  | zero =>
    intro _
    rw [Function.iterate_zero_apply]
    unfold clickStartBtn showScene domAfter
    dsimp only
    rw [hnext 0 hn]
    by_cases h01 : 0 + 1 < chain.length
    · simp only [if_pos h01]
      simp [dom0, h01, List.range_succ]
    · simp only [if_neg h01]
      simp [dom0, h01, List.range_succ]
  | succ t ih =>
    intro hk
    have ht : t < chain.length := by omega
    rw [Function.iterate_succ_apply', ih ht]
    unfold clickNextBtn domAfter showScene
    dsimp only
    simp only [if_pos hk]
    rw [hnext (t + 1) hk]
    by_cases h2 : t + 1 + 1 < chain.length
    · simp only [if_pos h2]
      simp [h2, List.range_succ]
    · simp only [if_neg h2]
      simp [h2, List.range_succ, Nat.succ_ne_zero]

/-! ### Claim C1 -/

/-- C1 counterexample: the queue `[""]` is a non-empty message queue, yet
after the first tick `charIndex = 1` exceeds the length 0 of the selected
message — the typing branch increments `charIndex` unconditionally and the
completion test `charIndex === currentMessage.length` compares 1 with 0 and
never fires. -/
theorem c1_cex_empty_message :
    ((tickRuby [""])^[1] twInit).charIndex = 1 ∧
    ((currentMsg [""] ((tickRuby [""])^[1] twInit)).length : Int) = 0 ∧
    ¬ (((tickRuby [""])^[1] twInit).charIndex ≤
        ((currentMsg [""] ((tickRuby [""])^[1] twInit)).length : Int)) := by
  decide

/-- C1 (amended): for the Rubaisha `typeStatus` and every queue whose
messages are all non-empty, after every tick `0 ≤ charIndex ≤
len(currentMessage)` and the displayed text equals the prefix of the
currently selected message of length `charIndex`.  (The Hisham variant
displays a different prefix; see the C9 theorems.) -/
theorem c1_typewriter_invariant (msgs : List String) (h1 : msgs ≠ [])
    (h2 : ∀ m ∈ msgs, m ≠ "") (k : Nat) :
    0 ≤ ((tickRuby msgs)^[k] twInit).charIndex ∧
    ((tickRuby msgs)^[k] twInit).charIndex ≤
      ((currentMsg msgs ((tickRuby msgs)^[k] twInit)).length : Int) ∧
    ((tickRuby msgs)^[k] twInit).display =
      jsSubstring0 (currentMsg msgs ((tickRuby msgs)^[k] twInit))
        ((tickRuby msgs)^[k] twInit).charIndex := by
  have key : TWInv msgs ((tickRuby msgs)^[k] twInit) := by
    induction k with
    | zero => exact twInv_init msgs h1 h2
    | succ n ih =>
      rw [Function.iterate_succ_apply']
      exact twInv_step msgs h1 h2 _ ih
  obtain ⟨hmi, hdisp, hdel, htyp⟩ := key
  refine ⟨?_, ?_, hdisp⟩ <;>
    · cases hdd : ((tickRuby msgs)^[k] twInit).isDeleting
      · obtain ⟨hlo, hhi⟩ := htyp hdd
        omega
      · obtain ⟨hlo, hhi⟩ := hdel hdd
        omega

/-- Witness for C1 at queue `["a"]` after one tick. -/
theorem c1_typewriter_invariant_witness :
    0 ≤ ((tickRuby ["a"])^[1] twInit).charIndex ∧
    ((tickRuby ["a"])^[1] twInit).charIndex ≤
      ((currentMsg ["a"] ((tickRuby ["a"])^[1] twInit)).length : Int) ∧
    ((tickRuby ["a"])^[1] twInit).display =
      jsSubstring0 (currentMsg ["a"] ((tickRuby ["a"])^[1] twInit))
        ((tickRuby ["a"])^[1] twInit).charIndex :=
  c1_typewriter_invariant ["a"] (by decide) (by decide) 1

/-! ### Claim C2 -/

/-- C2: for every queue of non-empty messages (non-emptiness of each
message is what makes a type-then-delete cycle complete at all), after `k`
complete type-then-delete cycles — `cycleTicks` counts their ticks —
starting from `messageIndex = 0`, the value of `messageIndex` equals
`k mod n`. -/
theorem c2_messageIndex_cycles (msgs : List String) (h1 : msgs ≠ [])
    (h2 : ∀ m ∈ msgs, m ≠ "") (k : Nat) :
    ((tickRuby msgs)^[cycleTicks msgs k] twInit).messageIndex =
      k % msgs.length := by
  obtain ⟨d, hd⟩ := cycles_reach msgs h1 h2 k
  rw [hd]

/-- Witness for C2: queue `["a"]`, three cycles, `messageIndex = 3 % 1`. -/
theorem c2_messageIndex_cycles_witness :
    ((tickRuby ["a"])^[cycleTicks ["a"] 3] twInit).messageIndex = 3 % 1 :=
  c2_messageIndex_cycles ["a"] (by decide) (by decide) 3

/-! ### Claim C3 -/

/-- C3: on every well-formed (linear) chain, after `k` activations of the
continue control the cursor sits on scene `k`; the control is shown exactly
while a successor exists, hence hidden exactly at the terminal scene, which
is the scene reached after `chainLength - 1` activations. -/
theorem c3_linear_chain_walk (chain : List Scene) (hchain : LinearChain chain)
    (k : Nat) (hk : k < chain.length) :
    ((clickNextBtn chain)^[k] (clickStartBtn chain ⟨0, dom0⟩)).currentScene
      = k ∧
    (((clickNextBtn chain)^[k]
        (clickStartBtn chain ⟨0, dom0⟩)).dom.nextBtnShown = true ↔
      k + 1 < chain.length) ∧
    ((chain.getD k defaultScene).next = none ↔ k = chain.length - 1) := by
  rw [scene_walk chain hchain k hk]
  refine ⟨rfl, ?_, ?_⟩
  · simp [domAfter]
  · rw [hchain.2 k hk]
    by_cases h2 : k + 1 < chain.length
    · rw [if_pos h2]
      simp
      omega
    · rw [if_neg h2]
      simp
      omega

/-- Witness for C3 on the source's 3-scene chain after 2 activations. -/
theorem c3_linear_chain_walk_witness :
    ((clickNextBtn scenes)^[2] (clickStartBtn scenes ⟨0, dom0⟩)).currentScene
      = 2 ∧
    (((clickNextBtn scenes)^[2]
        (clickStartBtn scenes ⟨0, dom0⟩)).dom.nextBtnShown = true ↔
      2 + 1 < scenes.length) ∧
    ((scenes.getD 2 defaultScene).next = none ↔ 2 = scenes.length - 1) :=
  c3_linear_chain_walk scenes ⟨by decide, by decide⟩ 2 (by decide)

/-! ### Claim C4 -/

/-- C4: calling `showScene` twice in a row with the same valid index leaves
the displayed image and dialogue as after the first call, while the sound
is played once more on the second call. -/
theorem c4_showScene_idempotent (chain : List Scene) (i : Nat) (d : Dom)
    ( _hi : i < chain.length) :
    (showScene chain i (showScene chain i d)).imageSrc =
      (showScene chain i d).imageSrc ∧
    (showScene chain i (showScene chain i d)).dialogueText =
      (showScene chain i d).dialogueText ∧
    (showScene chain i (showScene chain i d)).playedSounds =
      (showScene chain i d).playedSounds ++
        [(chain.getD i defaultScene).audio] := by
  unfold showScene
  dsimp only
  cases hnx : (chain.getD i defaultScene).next <;> simp

/-- Witness for C4 at scene 0 of the source's chain. -/
theorem c4_showScene_idempotent_witness :
    (showScene scenes 0 (showScene scenes 0 dom0)).imageSrc =
      (showScene scenes 0 dom0).imageSrc ∧
    (showScene scenes 0 (showScene scenes 0 dom0)).dialogueText =
      (showScene scenes 0 dom0).dialogueText ∧
    (showScene scenes 0 (showScene scenes 0 dom0)).playedSounds =
      (showScene scenes 0 dom0).playedSounds ++
        [(scenes.getD 0 defaultScene).audio] :=
  c4_showScene_idempotent scenes 0 dom0 (by decide)

/-! ### Claim C5 -/

/-- C5: showing a scene whose `next` is absent hides the continue control
and displays exactly the scene's original dialogue with the fixed epilogue
appended — the original text is still there as a prefix of the result. -/
theorem c5_terminal_scene_epilogue (chain : List Scene) (i : Nat) (d : Dom)
    (hterm : (chain.getD i defaultScene).next = none) :
    (showScene chain i d).nextBtnShown = false ∧
    (showScene chain i d).dialogueText =
      (chain.getD i defaultScene).dialogue ++ epilogue := by
  unfold showScene
  dsimp only
  rw [hterm]
  exact ⟨rfl, rfl⟩

/-- Witness for C5 at the terminal scene (index 2) of the source's chain. -/
theorem c5_terminal_scene_epilogue_witness :
    (showScene scenes 2 dom0).nextBtnShown = false ∧
    (showScene scenes 2 dom0).dialogueText =
      (scenes.getD 2 defaultScene).dialogue ++ epilogue :=
  c5_terminal_scene_epilogue scenes 2 dom0 (by decide)

/-! ### Claim C6 -/

/-- C6 counterexample: a tick taken in the Deleting state does not always
schedule the next tick after 50 ms.  With queue `["a"]`, the second tick is
taken in the Deleting state (the first tick completed the typing of `"a"`),
yet it schedules the next tick after 100 ms, because it brings `charIndex`
to 0 and clears `isDeleting` before the `setTimeout` call is made. -/
theorem c6_cex_last_delete_delay :
    ((tickRuby ["a"])^[1] twInit).isDeleting = true ∧
    ((tickRuby ["a"])^[2] twInit).delay = 100 ∧
    ¬ ((tickRuby ["a"])^[2] twInit).delay = 50 := by decide

/-- C6 (amended): in both scripts, a tick taken in the Deleting state
schedules the next tick after 50 ms unless it brings `charIndex` to 0, in
which case it schedules the first typing tick of the next message after
100 ms; a tick taken in the Typing state schedules the next tick after
100 ms unless it completes the message (`charIndex` reaches its length), in
which case it schedules the first deletion tick after 2000 ms. -/
theorem c6_tick_cadence (msgs : List String) (s : TWState) :
    ((tickRuby msgs s).delay =
      if s.isDeleting then (if s.charIndex - 1 = 0 then 100 else 50)
      else if s.charIndex + 1 = ((msgs.getD s.messageIndex "").length : Int)
        then 2000 else 100) ∧
    ((tickHisham msgs s).delay =
      if s.isDeleting then (if s.charIndex - 1 = 0 then 100 else 50)
      else if s.charIndex + 1 = ((msgs.getD s.messageIndex "").length : Int)
        then 2000 else 100) := by
  constructor <;>
    (dsimp only [tickRuby, tickHisham]; split_ifs <;> rfl)

/-! ### Claim C7 -/

/-- C7 counterexample: with queue `["a", "bb"]`, `isDeleting` is already
true after the FIRST tick (typing of the one-character message `"a"`
completes on that tick), and that tick schedules the next one 2000 ms
later — so it is not the case that `isDeleting` first becomes true after 2
ticks taken 100 ms apart. -/
theorem c7_cex_isDeleting_after_one_tick :
    ((tickRuby ["a", "bb"])^[1] twInit).isDeleting = true ∧
    ((tickRuby ["a", "bb"])^[1] twInit).delay = 2000 := by decide

/-- C7 (amended): with queue `["a", "bb"]`, after 1 tick the display is
`"a"` and `isDeleting` is already true, the next tick being scheduled after
the 2000 ms pause; that single deletion tick empties the display, advances
the message cursor to `"bb"`, and schedules the next tick after 100 ms. -/
theorem c7_scenario_a_bb :
    ((tickRuby ["a", "bb"])^[1] twInit).display = "a" ∧
    ((tickRuby ["a", "bb"])^[1] twInit).isDeleting = true ∧
    ((tickRuby ["a", "bb"])^[1] twInit).delay = 2000 ∧
    ((tickRuby ["a", "bb"])^[2] twInit).display = "" ∧
    ((tickRuby ["a", "bb"])^[2] twInit).isDeleting = false ∧
    ((tickRuby ["a", "bb"])^[2] twInit).messageIndex = 1 ∧
    ["a", "bb"].getD ((tickRuby ["a", "bb"])^[2] twInit).messageIndex "" = "bb" ∧
    ((tickRuby ["a", "bb"])^[2] twInit).delay = 100 := by decide

/-! ### Claim C8 -/

/-- C8 counterexample: the `sound.play()` call in the Rubaisha `showScene`
attaches no rejection handler, so a playback failure there is neither
logged nor recorded anywhere: the console output is empty and the resulting
page state is identical to that of a successful playback. -/
theorem c8_cex_unlogged_failure :
    (showSceneWithAudio scenes 0 PlayOutcome.failed "NotAllowedError"
      dom0).2 = [] ∧
    (showSceneWithAudio scenes 0 PlayOutcome.failed "NotAllowedError"
      dom0).1 =
      (showSceneWithAudio scenes 0 PlayOutcome.ok "" dom0).1 := by decide

/-- C8 (amended): a playback failure never alters the animation or
navigation state and is never retried or propagated into it: `showScene`
produces the same page state whatever the outcome, emitting no console
output on failure (no handler is attached), while the Hisham music player's
`.catch` logs `"Audio play failed: " + error` and still sets the button
label exactly as on success. -/
theorem c8_playback_failure_policy (chain : List Scene) (i : Nat) (d : Dom)
    (outcome : PlayOutcome) (err : String) (m : MusicState)
    (hp : m.paused = true) :
    (showSceneWithAudio chain i outcome err d).1 = showScene chain i d ∧
    (showSceneWithAudio chain i PlayOutcome.failed err d).2 = [] ∧
    (playBtnClick PlayOutcome.failed err m).btnText =
      (playBtnClick PlayOutcome.ok err m).btnText ∧
    (playBtnClick PlayOutcome.failed err m).log =
      m.log ++ ["Audio play failed: " ++ err] := by
  refine ⟨rfl, rfl, ?_, ?_⟩ <;>
    simp [playBtnClick, hp, playLog, hishamMusicCall]

/-- Witness for C8 with a failing playback on a paused music player. -/
theorem c8_playback_failure_policy_witness :
    (showSceneWithAudio scenes 0 PlayOutcome.failed "err" dom0).1 =
      showScene scenes 0 dom0 ∧
    (showSceneWithAudio scenes 0 PlayOutcome.failed "err" dom0).2 = [] ∧
    (playBtnClick PlayOutcome.failed "err" ⟨true, "Play Song", []⟩).btnText =
      (playBtnClick PlayOutcome.ok "err" ⟨true, "Play Song", []⟩).btnText ∧
    (playBtnClick PlayOutcome.failed "err" ⟨true, "Play Song", []⟩).log =
      ([] : List String) ++ ["Audio play failed: " ++ "err"] :=
  c8_playback_failure_policy scenes 0 dom0 PlayOutcome.failed "err"
    ⟨true, "Play Song", []⟩ rfl

/-! ### Claim C9 -/

/-- C9 counterexample: in the Hisham variant the displayed text DOES equal
the full current message at one point of each cycle: the first deletion
tick writes `currentMessage.substring(0, charIndex--)` with `charIndex`
still equal to the message length.  With queue `["ab"]`, after 3 ticks the
display is `"ab"`, the full current message. -/
theorem c9_cex_full_message_displayed :
    ((tickHisham ["ab"])^[3] twInit).display = "ab" ∧
    ["ab"].getD ((tickHisham ["ab"])^[3] twInit).messageIndex "" = "ab" ∧
    ((tickHisham ["ab"])^[3] twInit).isDeleting = true := by decide

/-- C9 (amended): the two `typeStatus` variants are not extensionally equal.
On queue `["ab"]` their states differ after one tick already: each Hisham
typing tick displays the prefix of length `charIndex` BEFORE incrementing
(first tick shows `""`, and at the switch to deleting the typed display is
the prefix of length `len - 1`), while the Rubaisha variant shows `"a"` on
the first tick and the full message at the switch.  The Hisham variant
nevertheless displays the full message exactly once per cycle, on the first
deletion tick. -/
theorem c9_variants_differ :
    tickHisham ["ab"] twInit ≠ tickRuby ["ab"] twInit ∧
    ((tickHisham ["ab"])^[1] twInit).display = "" ∧
    ((tickRuby ["ab"])^[1] twInit).display = "a" ∧
    ((tickHisham ["ab"])^[2] twInit).isDeleting = true ∧
    ((tickHisham ["ab"])^[2] twInit).display = "a" ∧
    ((tickRuby ["ab"])^[2] twInit).isDeleting = true ∧
    ((tickRuby ["ab"])^[2] twInit).display = "ab" ∧
    ((tickHisham ["ab"])^[3] twInit).display = "ab" := by decide

/-! ### Claim C10 -/

/-- C10: activating the start control leaves the scene cursor unchanged and
re-invokes `showScene` at the current cursor value: the displayed image and
dialogue afterwards are those of the CURRENT scene (with the epilogue when
it is terminal), not those of the first scene, and the current scene's
sound is played once more. -/
theorem c10_start_preserves_cursor (chain : List Scene) (p : Player) :
    (clickStartBtn chain p).currentScene = p.currentScene ∧
    (clickStartBtn chain p).dom.imageSrc =
      (chain.getD p.currentScene defaultScene).image ∧
    (clickStartBtn chain p).dom.dialogueText =
      (if (chain.getD p.currentScene defaultScene).next = none
       then (chain.getD p.currentScene defaultScene).dialogue ++ epilogue
       else (chain.getD p.currentScene defaultScene).dialogue) ∧
    (clickStartBtn chain p).dom.playedSounds =
      p.dom.playedSounds ++
        [(chain.getD p.currentScene defaultScene).audio] := by
  refine ⟨rfl, ?_, ?_, ?_⟩ <;>
    · unfold clickStartBtn showScene
      dsimp only
      cases hnx : (chain.getD p.currentScene defaultScene).next <;>
        simp [hnx]

end RaffiDoesCoding
